import Mathlib

/-
Verification of the trading-system simulator's execution and risk engine.

This file gives a shallow embedding, in Lean 4, of the core components of
the repository (src/core/event_bus.py, src/risk/position_tracker.py,
src/risk/risk_manager.py, src/risk/stop_loss.py,
src/execution/order_manager.py) and proves or refutes the specification
claims about them.

Modelling conventions:
- Python Decimal values are embedded as rationals.  Decimal arithmetic in
  the code is exact except for division (28 significant digits) and
  explicit quantize calls; divisions appearing here stay well inside that
  precision for every input used, so division is modelled exactly and
  quantize(Decimal("0.0001")) is modelled by the quantize4 function below
  (round half to even at 4 decimal places, the Decimal default).
- Python int quantities are embedded as Int.
- dicts keyed by symbol are embedded as association lists (so that sums
  over the values, needed by get_portfolio_snapshot, are expressible);
  the risk manager's price cache, only ever read pointwise, is embedded
  as a function to Option.
- coroutine handlers are embedded as pure state transformers; asyncio
  event-bus dispatch (asyncio.gather over the subscriber list) runs each
  handler's mutation synchronously before the next handler's in
  subscription order, which is made explicit in the composed step
  functions below.
-/

namespace TradingSim

/-- Order side, from models.Side. -/
inductive Side where
  | buy
  | sell
deriving DecidableEq, Repr

/-- Order status, from models.OrderStatus. -/
inductive OrderStatus where
  | pending
  | submitted
  | filled
  | partially_filled
  | cancelled
  | rejected
deriving DecidableEq, Repr

/-- Event types, from models.EventType. -/
inductive EventType where
  | tick
  | signal
  | order_request
  | order_update
  | fill
  | position_update
  | risk_breach
deriving DecidableEq, Repr

/-- Round a rational to the nearest integer, ties to even: the rounding
performed by Python Decimal under the default ROUND_HALF_EVEN context. -/
def roundHalfEven (x : ℚ) : ℤ :=
  let f : ℤ := ⌊x⌋
  let frac : ℚ := x - (f : ℚ)
  if frac < 1/2 then f
  else if 1/2 < frac then f + 1
  else if f % 2 = 0 then f else f + 1

/-- Decimal.quantize(Decimal("0.0001")): round to four decimal places,
half to even. -/
def quantize4 (x : ℚ) : ℚ :=
  (roundHalfEven (x * 10000) : ℚ) / 10000

/-- A market tick, from models.Tick (volume, bid, ask and timestamp are
never read by the core handlers and are omitted). -/
structure Tick where
  symbol : String
  price : ℚ
deriving DecidableEq, Repr

/-- An execution fill, from models.Fill (order id and timestamp are never
read by the handlers under verification and are omitted). -/
structure Fill where
  symbol : String
  side : Side
  quantity : ℤ
  price : ℚ
deriving DecidableEq, Repr

/-- A strategy signal, from models.Signal. -/
structure Signal where
  strategy_id : String
  symbol : String
  side : Side
  strength : ℚ
deriving DecidableEq, Repr

/-- An order request, from models.OrderRequest (id and timestamp omitted:
no handler under verification reads them). -/
structure OrderRequest where
  symbol : String
  side : Side
  quantity : ℤ
  limit_price : Option ℚ := none
  strategy_id : String := ""
deriving DecidableEq, Repr

/-- A per-symbol position, from models.Position, with the pydantic field
defaults. -/
structure Position where
  symbol : String
  quantity : ℤ := 0
  avg_entry_price : ℚ := 0
  current_price : ℚ := 0
  unrealized_pnl : ℚ := 0
  realized_pnl : ℚ := 0
deriving DecidableEq, Repr

/-- The risk limits of config.Settings used by RiskManager (the code
converts the float limits with Decimal(str(x)); they are rationals
here). -/
structure Settings where
  max_order_value : ℚ
  max_position_size : ℚ
  max_drawdown_pct : ℚ
deriving DecidableEq, Repr

/-- Pointwise lookup in an association list (Python dict read d.get(k)). -/
def mapGet {β : Type} (l : List (String × β)) (k : String) : Option β :=
  (l.find? (fun e => decide (e.1 = k))).map (fun e => e.2)

/-- Insert-or-update in an association list (Python dict write d[k] = v);
replaces in place, preserving insertion order like a Python dict. -/
def mapSet {β : Type} : List (String × β) → String → β → List (String × β)
  | [], k, v => [(k, v)]
  | e :: rest, k, v =>
    if e.1 = k then (k, v) :: rest else e :: mapSet rest k v

/-- Key removal from an association list (Python dict d.pop(k, None)). -/
def mapDrop {β : Type} : List (String × β) → String → List (String × β)
  | [], _ => []
  | e :: rest, k =>
    if e.1 = k then rest else e :: mapDrop rest k

/-- State of PositionTracker (src/risk/position_tracker.py): the per-symbol
position dict, the cash balance and the starting cash. -/
structure TrackerState where
  positions : List (String × Position)
  cash : ℚ
  initial_cash : ℚ
deriving DecidableEq, Repr

/-- A freshly constructed PositionTracker with the given initial cash. -/
def TrackerState.init (cash : ℚ) : TrackerState :=
  { positions := [], cash := cash, initial_cash := cash }

/-- PositionTracker._handle_fill: average-cost position update.  Mirrors
the four branches of the source (buy onto long or flat, buy reducing a
short, sell onto short or flat, sell reducing a long), the realized-pnl
bookkeeping, the cash delta, and the final quantize of the new average
entry price to four decimal places.  The POSITION_UPDATE publication
carries the stored position and is not modelled separately. -/
def trackerFill (st : TrackerState) (f : Fill) : TrackerState :=
  let pos0 := (mapGet st.positions f.symbol).getD { symbol := f.symbol }
  let cost := f.price * (f.quantity : ℚ)
  let step : Position × ℤ × ℚ × ℚ :=
    match f.side with
    | Side.buy =>
      if pos0.quantity ≥ 0 then
        -- Adding to long or opening long
        let total_cost := pos0.avg_entry_price * (pos0.quantity : ℚ) + cost
        let new_qty := pos0.quantity + f.quantity
        let new_avg := if new_qty > 0 then total_cost / (new_qty : ℚ) else 0
        (pos0, new_qty, new_avg, st.cash - cost)
      else
        -- Closing/reducing short
        let close_qty := min f.quantity |pos0.quantity|
        let realized := (pos0.avg_entry_price - f.price) * (close_qty : ℚ)
        let pos1 := { pos0 with realized_pnl := pos0.realized_pnl + realized }
        let new_qty := pos0.quantity + f.quantity
        let new_avg := if new_qty < 0 then pos0.avg_entry_price else f.price
        (pos1, new_qty, new_avg, st.cash - cost)
    | Side.sell =>
      if pos0.quantity ≤ 0 then
        -- Adding to short or opening short
        let new_qty := pos0.quantity - f.quantity
        let new_avg := if pos0.quantity = 0 then f.price else pos0.avg_entry_price
        (pos0, new_qty, new_avg, st.cash + cost)
      else
        -- Closing/reducing long
        let close_qty := min f.quantity pos0.quantity
        let realized := (f.price - pos0.avg_entry_price) * (close_qty : ℚ)
        let pos1 := { pos0 with realized_pnl := pos0.realized_pnl + realized }
        let new_qty := pos0.quantity - f.quantity
        let new_avg := if new_qty > 0 then pos0.avg_entry_price else 0
        (pos1, new_qty, new_avg, st.cash + cost)
  let pos2 := { step.1 with
    quantity := step.2.1,
    avg_entry_price := quantize4 step.2.2.1 }
  { st with
    positions := mapSet st.positions f.symbol pos2,
    cash := step.2.2.2 }

/-- PositionTracker._handle_tick: if a position exists for the symbol,
update its mark price and recompute the unrealized pnl. -/
def trackerTick (st : TrackerState) (t : Tick) : TrackerState :=
  match mapGet st.positions t.symbol with
  | none => st
  | some pos =>
    let unreal := (t.price - pos.avg_entry_price) * (pos.quantity : ℚ)
    let pos1 := { pos with current_price := t.price, unrealized_pnl := unreal }
    { st with positions := mapSet st.positions t.symbol pos1 }

/-- The mark-to-market value of all stored positions, as summed by
PositionTracker.get_portfolio_snapshot. -/
def positionValue (st : TrackerState) : ℚ :=
  (st.positions.map (fun e => e.2.current_price * (e.2.quantity : ℚ))).sum

/-- PortfolioSnapshot.total_equity: cash plus mark-to-market value. -/
def totalEquity (st : TrackerState) : ℚ :=
  st.cash + positionValue st

/-- RiskManager._check_order, as the decision it reaches: none means the
order is approved (silent pass-through); some rule means the order is
rejected and a RiskBreach with that rule plus an OrderUpdate with status
rejected are published.  prices is the manager's tick-fed price cache;
the code falls back to Decimal("100") for unknown symbols.  The three
checks run in source order with early return on the first failure. -/
def checkOrder (prices : String → Option ℚ) (tr : TrackerState)
    (s : Settings) (o : OrderRequest) : Option String :=
  let price := (prices o.symbol).getD 100
  let order_value := price * (o.quantity : ℚ)
  if order_value > s.max_order_value then
    some "max_order_value_exceeded"
  else
    let current_qty := ((mapGet tr.positions o.symbol).map Position.quantity).getD 0
    let projected_value := price * (|current_qty + o.quantity| : ℤ)
    if projected_value > s.max_position_size then
      some "max_position_size_exceeded"
    else
      if tr.initial_cash > 0 then
        let drawdown := (tr.initial_cash - totalEquity tr) / tr.initial_cash
        if drawdown > s.max_drawdown_pct then
          some "max_drawdown_exceeded"
        else
          none
      else
        none

/-- The projected position notional as the specification words it:
lastPrice times the absolute value of currentQty plus the order quantity
for buys and minus it for sells (sign per side).  Stated from the spec
text only, for comparison with the source's computation in checkOrder. -/
def projectedSpec (price : ℚ) (currentQty : ℤ) (o : OrderRequest) : ℚ :=
  match o.side with
  | Side.buy => price * (|currentQty + o.quantity| : ℤ)
  | Side.sell => price * (|currentQty - o.quantity| : ℤ)

/-- Events observable on the bus during one signal-to-fill round trip of
OrderManager plus the subscribed RiskManager (timestamps and ids
omitted). -/
inductive EmittedEvent where
  | orderRequest (o : OrderRequest)
  | riskBreach (rule : String)
  | orderUpdate (status : OrderStatus)
  | fill (f : Fill)
deriving DecidableEq, Repr

/-- Whether an emitted event is a Fill event. -/
def EmittedEvent.isFill : EmittedEvent → Bool
  | EmittedEvent.fill _ => true
  | _ => false

/-- OrderManager._simulate_fill: fill price is the last known price for
the symbol (else the order's limit price, else Decimal("100.00")),
adjusted by a 0.0001 slippage fraction (added for buys, subtracted for
sells) and quantized to four decimal places; quantity is the full order
quantity (no partial fills). -/
def simulateFill (prices : String → Option ℚ) (o : OrderRequest) : Fill :=
  let base := (prices o.symbol).getD (o.limit_price.getD 100)
  let slippage := base * (1/10000)
  let fill_price :=
    match o.side with
    | Side.buy => base + slippage
    | Side.sell => base - slippage
  { symbol := o.symbol, side := o.side, quantity := o.quantity,
    price := quantize4 fill_price }

/-- OrderManager._handle_signal composed with the bus dispatch of the
published ORDER_REQUEST to RiskManager._check_order (the wiring of
main.py and the tests): derive the quantity as max(1, int(strength*100))
(strength lies in [0,1], so Python int truncation is the floor), build a
market OrderRequest, publish it — during that publish the risk manager
runs and, on rejection, publishes a RiskBreach and a rejected
OrderUpdate — and then simulate the fill.  The source calls
_simulate_fill unconditionally, whatever the risk manager decided. -/
def handleSignal (prices : String → Option ℚ) (tr : TrackerState)
    (s : Settings) (sig : Signal) : List EmittedEvent :=
  let quantity := max 1 ⌊sig.strength * 100⌋
  let order : OrderRequest :=
    { symbol := sig.symbol, side := sig.side, quantity := quantity,
      strategy_id := sig.strategy_id }
  let riskEvents :=
    match checkOrder prices tr s order with
    | some rule =>
      [EmittedEvent.riskBreach rule, EmittedEvent.orderUpdate OrderStatus.rejected]
    | none => []
  EmittedEvent.orderRequest order :: riskEvents
    ++ [EmittedEvent.fill (simulateFill prices order)]

/-- A stop level, from stop_loss.StopLevel. -/
structure StopLevel where
  symbol : String
  stop_price : ℚ
  side_to_close : Side
  quantity : ℤ
deriving DecidableEq, Repr

/-- State of StopLossManager: the per-symbol stop dict (read pointwise
only, embedded as a total function that is none on absent keys), the set
of symbols whose stop has fired for the current position instance, and
the configured stop-loss fraction. -/
structure SLMState where
  stops : String → Option StopLevel
  triggered : List String
  stop_loss_pct : ℚ

/-- A freshly constructed StopLossManager with the given fraction. -/
def SLMState.init (pct : ℚ) : SLMState :=
  { stops := fun _ => none, triggered := [], stop_loss_pct := pct }

/-- Set-insert for the triggered set (Python set.add). -/
def setAdd (l : List String) (s : String) : List String :=
  if s ∈ l then l else s :: l

/-- Set-removal for the triggered set (Python set.discard). -/
def setDiscard (l : List String) (s : String) : List String :=
  l.filter (fun x => decide (x ≠ s))

/-- StopLossManager._handle_fill, reading the position the tracker holds
for the fill's symbol after its own fill handler ran (the tracker is
subscribed before the stop-loss manager, and its handler mutates state
before its first await, so the stop-loss manager observes the updated
position): a flat or missing position removes the stop and clears the
triggered flag; otherwise a fresh stop is stored at
avg_entry_price*(1-pct) for longs or avg_entry_price*(1+pct) for
shorts and the triggered flag is cleared. -/
def slmFill (sm : SLMState) (posAfter : Option Position) (f : Fill) : SLMState :=
  match posAfter with
  | none =>
    { sm with stops := fun s => if s = f.symbol then none else sm.stops s,
              triggered := setDiscard sm.triggered f.symbol }
  | some pos =>
    if pos.quantity = 0 then
      { sm with stops := fun s => if s = f.symbol then none else sm.stops s,
                triggered := setDiscard sm.triggered f.symbol }
    else
      let lvl : StopLevel :=
        if pos.quantity > 0 then
          { symbol := f.symbol,
            stop_price := pos.avg_entry_price * (1 - sm.stop_loss_pct),
            side_to_close := Side.sell,
            quantity := |pos.quantity| }
        else
          { symbol := f.symbol,
            stop_price := pos.avg_entry_price * (1 + sm.stop_loss_pct),
            side_to_close := Side.buy,
            quantity := |pos.quantity| }
      { sm with stops := fun s => if s = f.symbol then some lvl else sm.stops s,
                triggered := setDiscard sm.triggered f.symbol }

/-- The trigger test of StopLossManager._handle_tick: for a long's
sell-to-close stop fire at or below the stop price, for a short's
buy-to-close stop at or above it. -/
def stopHit (stop : StopLevel) (price : ℚ) : Bool :=
  match stop.side_to_close with
  | Side.sell => decide (price ≤ stop.stop_price)
  | Side.buy => decide (price ≥ stop.stop_price)

/-- StopLossManager._handle_tick: with a stop present and the symbol not
already triggered, fire when the price crosses the stop (at or below for
a long's sell-to-close stop, at or above for a short's), emitting one
full-strength closing Signal tagged stop_loss and marking the symbol
triggered. -/
def slmTick (sm : SLMState) (t : Tick) : SLMState × List Signal :=
  match sm.stops t.symbol with
  | none => (sm, [])
  | some stop =>
    if t.symbol ∈ sm.triggered then (sm, [])
    else
      if stopHit stop t.price then
        ({ sm with triggered := setAdd sm.triggered t.symbol },
         [{ strategy_id := "stop_loss", symbol := t.symbol,
            side := stop.side_to_close, strength := 1 }])
      else (sm, [])

/-- A market event fed to the tracker plus stop-loss pair. -/
inductive MarketEvent where
  | fillEv (f : Fill)
  | tickEv (t : Tick)
deriving DecidableEq, Repr

/-- Combined state of PositionTracker and StopLossManager as wired in
the stop-loss tests (tracker started, hence subscribed, first). -/
structure SysState where
  tracker : TrackerState
  slm : SLMState

/-- One bus publication to the tracker plus stop-loss pair: on a FILL the
tracker updates first and the stop-loss manager then reads the updated
position; on a TICK the tracker re-marks the position and the stop-loss
manager evaluates its trigger, possibly emitting a closing Signal. -/
def sysStep (st : SysState) (e : MarketEvent) : SysState × List Signal :=
  match e with
  | MarketEvent.fillEv f =>
    let tr1 := trackerFill st.tracker f
    let sm1 := slmFill st.slm (mapGet tr1.positions f.symbol) f
    ({ tracker := tr1, slm := sm1 }, [])
  | MarketEvent.tickEv t =>
    let tr1 := trackerTick st.tracker t
    let (sm1, sigs) := slmTick st.slm t
    ({ tracker := tr1, slm := sm1 }, sigs)

/-- Run a sequence of market events, collecting all emitted stop-loss
signals in order. -/
def sysRun (st : SysState) : List MarketEvent → SysState × List Signal
  | [] => (st, [])
  | e :: rest =>
    let (st1, sigs) := sysStep st e
    let (st2, more) := sysRun st1 rest
    (st2, sigs ++ more)

/-- Run a sequence of fill and tick events through the tracker alone. -/
def trackerRun (st : TrackerState) (es : List MarketEvent) : TrackerState :=
  es.foldl (fun s e =>
    match e with
    | MarketEvent.fillEv f => trackerFill s f
    | MarketEvent.tickEv t => trackerTick s t) st

/-- A bus envelope as the event bus sees it: the bus logic reads only the
type tag; the payload is carried opaquely (an identifier stands for the
concrete pydantic payload object). -/
structure BusEvent where
  type : EventType
  payload : ℕ
deriving DecidableEq, Repr

/-- EventBus._record, generic in the recorded element exactly as the
source is: append the event and, when the history exceeds maxHistory,
keep the final maxHistory entries (the Python slice history[-max:]). -/
def record {ε : Type} (maxHistory : ℕ) (hist : List ε) (e : ε) : List ε :=
  let h := hist ++ [e]
  if maxHistory < h.length then h.drop (h.length - maxHistory) else h

/-- Record a whole sequence of events in arrival order. -/
def recordAll {ε : Type} (maxHistory : ℕ) (hist : List ε) (es : List ε) : List ε :=
  es.foldl (record maxHistory) hist

/-- State of EventBus: subscriber lists per event type (handlers stand
for their identifiers; a defaultdict(list) reads as the empty list on
absent keys, which the total function captures) and the bounded
history. -/
structure Bus where
  subscribers : EventType → List ℕ
  history : List BusEvent

/-- A freshly constructed EventBus. -/
def Bus.empty : Bus :=
  { subscribers := fun _ => [], history := [] }

/-- EventBus.subscribe: append the handler to the type's list. -/
def subscribe (b : Bus) (t : EventType) (h : ℕ) : Bus :=
  { b with subscribers := fun t' =>
      if t' = t then b.subscribers t ++ [h] else b.subscribers t' }

/-- EventBus.unsubscribe: Python list.remove — raise ValueError when the
handler is absent from the type's list, otherwise delete its first
occurrence.  The error branch leaves the state untouched (the exception
is raised before any mutation). -/
def unsubscribe (b : Bus) (t : EventType) (h : ℕ) : Except String Bus :=
  if h ∈ b.subscribers t then
    Except.ok { b with subscribers := fun t' =>
      if t' = t then (b.subscribers t).erase h else b.subscribers t' }
  else
    Except.error "ValueError"

/-- EventBus.publish: record the event, then dispatch it to every handler
subscribed to its type via asyncio.gather with return_exceptions=True —
each handler runs to completion and a raising handler contributes an
error value to the result list (which is only logged) instead of
propagating; publish itself always returns.  env gives each handler
identifier its behaviour on events. -/
def publish (env : ℕ → BusEvent → Except String Unit) (b : Bus)
    (e : BusEvent) : Bus × List (Except String Unit) :=
  let b1 := { b with history := record 1000 b.history e }
  let handlers := b1.subscribers e.type
  (b1, handlers.map (fun h => env h e))

/-- Publish a sequence of events in order, keeping the final bus state. -/
def publishAll (env : ℕ → BusEvent → Except String Unit) (b : Bus)
    (es : List BusEvent) : Bus :=
  es.foldl (fun st e => (publish env st e).1) b

/-- The current position quantity the risk manager reads for a symbol
(pos.quantity if pos else 0). -/
def currentQty (tr : TrackerState) (sym : String) : ℤ :=
  ((mapGet tr.positions sym).map Position.quantity).getD 0

/-- Apply a sequence of same-direction buy fills (quantity, price) on one
symbol through the tracker's fill handler. -/
def applyBuys (sym : String) (st : TrackerState) (l : List (ℤ × ℚ)) : TrackerState :=
  l.foldl (fun s qp =>
    trackerFill s { symbol := sym, side := Side.buy, quantity := qp.1, price := qp.2 }) st

/-- Total quantity of a fill sequence. -/
def sumQty (l : List (ℤ × ℚ)) : ℤ :=
  (l.map (fun qp => qp.1)).sum

/-- Total cost of a fill sequence. -/
def sumCost (l : List (ℤ × ℚ)) : ℚ :=
  (l.map (fun qp => (qp.1 : ℚ) * qp.2)).sum

/-- The quantity-weighted average price of a fill sequence, the
specification's formula for the average entry price after same-direction
fills q1..qn at p1..pn. -/
def wavg (l : List (ℤ × ℚ)) : ℚ :=
  sumCost l / (sumQty l : ℚ)

/-- Scenario inputs for the rejected-order claim: the price cache after a
tick of AAPL at 150. -/
def pricesC1 : String → Option ℚ :=
  fun s => if s = "AAPL" then some 150 else none

/-- Scenario limits for the rejected-order claim: max_order_value 100,
with the other limits at their config defaults. -/
def settingsC1 : Settings :=
  { max_order_value := 100, max_position_size := 10000, max_drawdown_pct := 1/20 }

/-- Scenario trade signal: BUY AAPL at strength 0.1, mapping to a
10-share order. -/
def sigC1 : Signal :=
  { strategy_id := "test", symbol := "AAPL", side := Side.buy, strength := 1/10 }

/-- A tracker holding a 10-share AAPL long at average entry price 100,
bought from 100000 initial cash, marked at 100. -/
def trC2 : TrackerState :=
  { positions := [("AAPL",
      { symbol := "AAPL", quantity := 10, avg_entry_price := 100,
        current_price := 100, unrealized_pnl := 0, realized_pnl := 0 })],
    cash := 99000, initial_cash := 100000 }

/-- A 10-share AAPL sell order. -/
def oC2 : OrderRequest :=
  { symbol := "AAPL", side := Side.sell, quantity := 10 }

/-- Limits for the projected-position claim: the position-size check is
the binding one. -/
def sC2 : Settings :=
  { max_order_value := 10000, max_position_size := 1500, max_drawdown_pct := 1/20 }

/-- An empty price cache (every symbol falls back to the default
reference price 100). -/
def noPrices : String → Option ℚ := fun _ => none

/-- A fresh tracker-plus-stop-loss system: 100000 initial cash, 2 percent
stop. -/
def sys0 : SysState :=
  { tracker := TrackerState.init 100000, slm := SLMState.init (1/50) }

/-- Event sequence flattening a short via a buy: open a 10-share short at
100, tick at 95, close it with a buy at 90. -/
def c3events : List MarketEvent :=
  [MarketEvent.fillEv { symbol := "AAPL", side := Side.sell, quantity := 10, price := 100 },
   MarketEvent.tickEv { symbol := "AAPL", price := 95 },
   MarketEvent.fillEv { symbol := "AAPL", side := Side.buy, quantity := 10, price := 90 }]

/-- A tracker holding a 5-share AAPL long at average entry price 100. -/
def trC3 : TrackerState :=
  { positions := [("AAPL",
      { symbol := "AAPL", quantity := 5, avg_entry_price := 100,
        current_price := 0, unrealized_pnl := 0, realized_pnl := 0 })],
    cash := 99500, initial_cash := 100000 }

/-- The sell fill that closes that long completely at 110. -/
def fillC3close : Fill :=
  { symbol := "AAPL", side := Side.sell, quantity := 5, price := 110 }

/-- The flat position stored after that closing sell: average entry price
reset to 0, 50 realized. -/
def posC3flat : Position :=
  { symbol := "AAPL", quantity := 0, avg_entry_price := 0,
    current_price := 0, unrealized_pnl := 0, realized_pnl := 50 }

/-- The single opening fill of the mark-to-market counterexample: buy 10
AAPL at 100 onto a flat book. -/
def fillC4 : Fill :=
  { symbol := "AAPL", side := Side.buy, quantity := 10, price := 100 }

/-- The position stored right after that fill, with no tick yet. -/
def posC4 : Position :=
  { symbol := "AAPL", quantity := 10, avg_entry_price := 100,
    current_price := 0, unrealized_pnl := 0, realized_pnl := 0 }

/-- Same-direction fills whose weighted average 15001/15000 is not
representable at four decimal places: buy 1 at 1.0000, then 2 at
1.0001. -/
def fillsC5 : List (ℤ × ℚ) :=
  [(1, 1), (2, 10001/10000)]

/-- Same-direction fills whose running weighted averages 100.1 and
100.125 are both exactly representable at four decimal places. -/
def fillsW : List (ℤ × ℚ) :=
  [(2, 1001/10), (2, 2003/20)]

/-- Stop-loss scenario: open a 100-share long at 100 (stop armed at 98),
trigger at 97.99, tick again at 96 (no re-emission), add one share at 97
(position 101, never flat; the fill re-arms the stop), tick at 90. -/
def c7events : List MarketEvent :=
  [MarketEvent.fillEv { symbol := "AAPL", side := Side.buy, quantity := 100, price := 100 },
   MarketEvent.tickEv { symbol := "AAPL", price := 9799/100 },
   MarketEvent.tickEv { symbol := "AAPL", price := 96 },
   MarketEvent.fillEv { symbol := "AAPL", side := Side.buy, quantity := 1, price := 97 },
   MarketEvent.tickEv { symbol := "AAPL", price := 90 }]

/-- The closing signal the stop-loss manager emits for a long AAPL
position. -/
def sellStopSignal : Signal :=
  { strategy_id := "stop_loss", symbol := "AAPL", side := Side.sell, strength := 1 }

/-- An armed 98-stop protecting a 100-share AAPL long entered at 100
with a 2 percent stop-loss. -/
def armedStop : StopLevel :=
  { symbol := "AAPL", stop_price := 98, side_to_close := Side.sell, quantity := 100 }

/-- A stop-loss manager holding that armed stop with a clear triggered
flag. -/
def armedSLM : SLMState :=
  { stops := fun s => if s = "AAPL" then some armedStop else none,
    triggered := [], stop_loss_pct := 1/50 }

/-- A bus with two handlers, 0 then 1, subscribed to TICK. -/
def b0 : Bus :=
  { subscribers := fun t => if t = EventType.tick then [0, 1] else [], history := [] }

/-- A handler environment where handler 0 raises on every event and every
other handler succeeds. -/
def envBoom : ℕ → BusEvent → Except String Unit :=
  fun h _ => if h = 0 then Except.error "boom" else Except.ok ()

/-- A tick-typed bus event with an opaque payload. -/
def tickBE (n : ℕ) : BusEvent :=
  { type := EventType.tick, payload := n }

/-- Looking up the key just written returns the written value, for any
association list. -/
theorem mapGet_mapSet_self {β : Type} (l : List (String × β)) (k : String) (v : β) :
    mapGet (mapSet l k v) k = some v := by
  induction l with
  | nil => simp [mapGet, mapSet]
  | cons e rest ih =>
    by_cases he : e.1 = k
    · simp [mapSet, he, mapGet]
    · simp [mapSet, he, mapGet, List.find?]
      simpa [mapGet] using ih

/-- Lookup in the empty association list. -/
theorem mapGet_nil {β : Type} (k : String) :
    mapGet ([] : List (String × β)) k = none := rfl

/-- Quantizing zero gives zero. -/
theorem quantize4_zero : quantize4 0 = 0 := by
  norm_num [quantize4, roundHalfEven]

/-- Two positions agreeing on every field are equal. -/
theorem position_eq_of_fields {p q : Position}
    (h1 : p.symbol = q.symbol) (h2 : p.quantity = q.quantity)
    (h3 : p.avg_entry_price = q.avg_entry_price)
    (h4 : p.current_price = q.current_price)
    (h5 : p.unrealized_pnl = q.unrealized_pnl)
    (h6 : p.realized_pnl = q.realized_pnl) : p = q := by
  cases p
  cases q
  simp_all

/-- Claim C1: the Order Manager publishes the OrderRequest for a signal
and is meant to simulate a fill only if the order was risk-approved; on
the scenario max_order_value=100, last price 150, 10-share buy, the
claim demands a RiskBreach, a rejected OrderUpdate and zero Fill events.
The source's _handle_signal calls _simulate_fill unconditionally, so
this run emits the RiskBreach and the rejected OrderUpdate and still
publishes exactly one Fill — the code contradicts its own test
(test_risk_manager_blocks_order asserts zero fills) and its own callers
(main.py passes a risk-manager argument OrderManager does not accept). -/
theorem c1_rejected_order_still_fills :
    handleSignal pricesC1 (TrackerState.init 100000) settingsC1 sigC1 =
      [EmittedEvent.orderRequest
         { symbol := "AAPL", side := Side.buy, quantity := 10, strategy_id := "test" },
       EmittedEvent.riskBreach "max_order_value_exceeded",
       EmittedEvent.orderUpdate OrderStatus.rejected,
       EmittedEvent.fill
         { symbol := "AAPL", side := Side.buy, quantity := 10, price := 30003/200 }] ∧
    ((handleSignal pricesC1 (TrackerState.init 100000) settingsC1 sigC1).filter
      (fun e => e.isFill)).length = 1 := by
  constructor <;>
  norm_num [handleSignal, checkOrder, simulateFill, quantize4, roundHalfEven,
    mapGet, totalEquity, positionValue, TrackerState.init, pricesC1, settingsC1,
    sigC1, List.filter, EmittedEvent.isFill]

/-- Claim C2 (counterexample): the claim says the second risk check uses
lastPrice times abs(currentQty plus-or-minus quantity) with the sign
chosen per side, and rejects exactly when that exceeds
max-position-size.  For a 10-share SELL against a 10-share long at
reference price 100 with max_position_size 1500, the spec formula gives
100*abs(10-10) = 0, not exceeding the limit, yet the code — which adds
the quantity regardless of side — rejects with
max_position_size_exceeded. -/
theorem c2_counterexample :
    checkOrder noPrices trC2 sC2 oC2 = some "max_position_size_exceeded" ∧
    ¬ projectedSpec ((noPrices oC2.symbol).getD 100) (currentQty trC2 oC2.symbol) oC2 >
        sC2.max_position_size := by
  constructor <;>
  norm_num [checkOrder, projectedSpec, currentQty, mapGet, totalEquity,
    positionValue, noPrices, trC2, sC2, oC2]

/-- Claim C2 (amended): the second check computes the projected position
notional as lastPrice times abs(currentQty + quantity) for both order
sides — the side is ignored, a sell is added like a buy — and, provided
the order passed the order-value check, rejects with reason
max_position_size_exceeded exactly when that value exceeds
max-position-size. -/
theorem c2_projected_ignores_side
    (prices : String → Option ℚ) (tr : TrackerState) (s : Settings) (o : OrderRequest)
    (h1 : ¬ ((prices o.symbol).getD 100) * (o.quantity : ℚ) > s.max_order_value) :
    checkOrder prices tr s o = some "max_position_size_exceeded" ↔
      ((prices o.symbol).getD 100) * ((|currentQty tr o.symbol + o.quantity| : ℤ) : ℚ) >
        s.max_position_size := by
  simp only [checkOrder, currentQty]
  rw [if_neg h1]
  split_ifs with h2 h3 h4
  · exact iff_of_true rfl h2
  · exact iff_of_false (by simp) h2
  · exact iff_of_false (by simp) h2
  · exact iff_of_false (by simp) h2

/-- Claim C2 (amended, witness): the amended equivalence evaluated on the
counterexample scenario, where the code projection 100*abs(10+10) = 2000
exceeds the 1500 limit. -/
theorem c2_projected_ignores_side_witness :
    checkOrder noPrices trC2 sC2 oC2 = some "max_position_size_exceeded" := by
  have h := c2_projected_ignores_side noPrices trC2 sC2 oC2 (by
    norm_num [noPrices, oC2, sC2])
  rw [h]
  norm_num [noPrices, oC2, sC2, currentQty, mapGet, trC2]

/-- Claim C4 (counterexample): the claim asserts that in every reachable
tracker state every stored Position satisfies
unrealized_pnl = (current_price - avg_entry_price) * quantity.  After
the single fill buy 10 AAPL at 100 on a fresh tracker the stored
position has unrealized_pnl 0 while the formula gives
(0 - 100) * 10 = -1000. -/
theorem c4_counterexample :
    mapGet (trackerRun (TrackerState.init 100000) [MarketEvent.fillEv fillC4]).positions
      "AAPL" = some posC4 ∧
    posC4.unrealized_pnl ≠
      (posC4.current_price - posC4.avg_entry_price) * (posC4.quantity : ℚ) := by
  constructor <;>
  norm_num [trackerRun, trackerFill, mapGet, mapSet, quantize4, roundHalfEven,
    TrackerState.init, fillC4, posC4]

/-- Claim C4 (amended): the mark-to-market identity
unrealized_pnl = (current_price - avg_entry_price) * quantity holds for
the tick's symbol immediately after every tick handler invocation (a
fill leaves unrealized_pnl stale until the next tick re-establishes
it). -/
theorem c4_tick_restores_invariant (st : TrackerState) (t : Tick) (p : Position)
    (hp : mapGet (trackerTick st t).positions t.symbol = some p) :
    p.unrealized_pnl = (p.current_price - p.avg_entry_price) * (p.quantity : ℚ) := by
  unfold trackerTick at hp
  cases hpos : mapGet st.positions t.symbol with
  | none =>
    rw [hpos] at hp
    rw [hpos] at hp
    exact absurd hp (by simp [hpos])
  | some pos =>
    rw [hpos] at hp
    simp only [mapGet_mapSet_self, Option.some.injEq] at hp
    subst hp
    rfl

/-- Claim C4 (amended, witness): after a buy of 10 at 100 followed by a
tick at 95, the stored position satisfies the identity. -/
theorem c4_tick_restores_invariant_witness :
    ∃ p, mapGet (trackerTick (trackerFill (TrackerState.init 100000) fillC4)
        { symbol := "AAPL", price := 95 }).positions "AAPL" = some p ∧
      p.unrealized_pnl = (p.current_price - p.avg_entry_price) * (p.quantity : ℚ) := by
  have hp : mapGet (trackerTick (trackerFill (TrackerState.init 100000) fillC4)
      { symbol := "AAPL", price := 95 }).positions "AAPL" =
      some { symbol := "AAPL", quantity := 10, avg_entry_price := 100,
             current_price := 95, unrealized_pnl := -50, realized_pnl := 0 } := by
    norm_num [trackerTick, trackerFill, mapGet, mapSet, quantize4, roundHalfEven,
      TrackerState.init, fillC4]
  exact ⟨_, hp, c4_tick_restores_invariant _ { symbol := "AAPL", price := 95 } _ hp⟩

/-- Claim C3 (counterexample): the claim says every fill that brings a
position's quantity to exactly 0 leaves avg_entry_price = 0 and
unrealized_pnl = 0.  Open a 10-share short at 100, tick at 95 (stored
unrealized_pnl becomes 50), then buy 10 at 90: the position is flat but
avg_entry_price is 90 (the code stores the fill price when a buy closes
a short) and unrealized_pnl is still 50 (fills never touch it).  The
stop-removal part of the claim does hold on this run. -/
theorem c3_counterexample :
    (mapGet (sysRun sys0 c3events).1.tracker.positions "AAPL").map Position.quantity =
      some 0 ∧
    ¬ (mapGet (sysRun sys0 c3events).1.tracker.positions "AAPL").map
        Position.avg_entry_price = some 0 ∧
    ¬ (mapGet (sysRun sys0 c3events).1.tracker.positions "AAPL").map
        Position.unrealized_pnl = some 0 ∧
    (sysRun sys0 c3events).1.slm.stops "AAPL" = none ∧
    "AAPL" ∉ (sysRun sys0 c3events).1.slm.triggered := by
  refine ⟨?_, ?_, ?_, ?_, ?_⟩ <;>
  norm_num [sysRun, sysStep, trackerFill, trackerTick, slmFill, slmTick, stopHit,
    mapGet, mapSet, setAdd, setDiscard, quantize4, roundHalfEven,
    TrackerState.init, SLMState.init, sys0, c3events]

/-- Claim C3 (amended): for every fill of positive quantity that brings
the symbol's position quantity to exactly 0, the stored position's
avg_entry_price becomes 0 when the fill is a sell (closing a long) but
becomes the quantized fill price when the fill is a buy (closing a
short), and unrealized_pnl is left at its previous value (it is not
reset by the fill); the Stop-Loss Manager, reading the flat position,
removes the stop level and clears the triggered flag for the symbol. -/
theorem c3_flat_fill_behaviour (tr : TrackerState) (sm : SLMState) (f : Fill)
    (p : Position) (hq : 1 ≤ f.quantity)
    (hp : mapGet (trackerFill tr f).positions f.symbol = some p)
    (h0 : p.quantity = 0) :
    (f.side = Side.sell → p.avg_entry_price = 0) ∧
    (f.side = Side.buy → p.avg_entry_price = quantize4 f.price) ∧
    p.unrealized_pnl =
      ((mapGet tr.positions f.symbol).getD { symbol := f.symbol }).unrealized_pnl ∧
    (sysStep { tracker := tr, slm := sm } (MarketEvent.fillEv f)).1.slm.stops
      f.symbol = none ∧
    f.symbol ∉ (sysStep { tracker := tr, slm := sm } (MarketEvent.fillEv f)).1.slm.triggered := by
  have hstops : (sysStep { tracker := tr, slm := sm } (MarketEvent.fillEv f)).1.slm.stops
      f.symbol = none := by
    simp [sysStep, hp, slmFill, h0]
  have htrig : f.symbol ∉
      (sysStep { tracker := tr, slm := sm } (MarketEvent.fillEv f)).1.slm.triggered := by
    simp [sysStep, hp, slmFill, h0, setDiscard, List.mem_filter]
  refine ⟨?_, ?_, ?_, hstops, htrig⟩ <;>
  · simp only [trackerFill, mapGet_mapSet_self, Option.some.injEq] at hp
    subst hp
    cases hside : f.side with
    | buy =>
      simp only [hside] at h0 ⊢
      by_cases hcond :
          ((mapGet tr.positions f.symbol).getD { symbol := f.symbol }).quantity ≥ 0
      · simp only [if_pos hcond] at h0
        exfalso
        omega
      · simp only [if_neg hcond] at h0 ⊢
        try simp [h0]
    | sell =>
      simp only [hside] at h0 ⊢
      by_cases hcond :
          ((mapGet tr.positions f.symbol).getD { symbol := f.symbol }).quantity ≤ 0
      · simp only [if_pos hcond] at h0
        exfalso
        omega
      · simp only [if_neg hcond] at h0 ⊢
        try simp [h0, quantize4_zero]

/-- Claim C3 (amended, witness): a 5-share sell at 110 flattening a
5-share long at 100 resets the average entry price to 0, leaves the
(zero) unrealized pnl untouched, and removes the armed stop. -/
theorem c3_flat_fill_behaviour_witness :
    (fillC3close.side = Side.sell → posC3flat.avg_entry_price = 0) ∧
    (fillC3close.side = Side.buy → posC3flat.avg_entry_price = quantize4 fillC3close.price) ∧
    posC3flat.unrealized_pnl =
      ((mapGet trC3.positions fillC3close.symbol).getD
        { symbol := fillC3close.symbol }).unrealized_pnl ∧
    (sysStep { tracker := trC3, slm := armedSLM }
      (MarketEvent.fillEv fillC3close)).1.slm.stops fillC3close.symbol = none ∧
    fillC3close.symbol ∉ (sysStep { tracker := trC3, slm := armedSLM }
      (MarketEvent.fillEv fillC3close)).1.slm.triggered :=
  c3_flat_fill_behaviour trC3 armedSLM fillC3close posC3flat
    (by norm_num [fillC3close])
    (by norm_num [trackerFill, mapGet, mapSet, quantize4, roundHalfEven,
      trC3, fillC3close, posC3flat])
    (by norm_num [posC3flat])

/-- Claim C7 (counterexample): the claim says that once a stop fires the
manager never emits a second signal on subsequent adverse ticks until
the position is flattened and reopened.  Run: open a 100-share long at
100, trigger the stop at 97.99, tick at 96 (no re-emission), then add
one share at 97 — the position goes 100 to 101 and is never flat — and
tick at 90: a second full-strength closing signal is emitted, because
any position-changing fill clears the triggered flag. -/
theorem c7_counterexample :
    (sysRun sys0 c7events).2 = [sellStopSignal, sellStopSignal] ∧
    (mapGet (sysRun sys0 (c7events.take 1)).1.tracker.positions "AAPL").map
      Position.quantity = some 100 ∧
    (mapGet (sysRun sys0 (c7events.take 4)).1.tracker.positions "AAPL").map
      Position.quantity = some 101 ∧
    (mapGet (sysRun sys0 c7events).1.tracker.positions "AAPL").map
      Position.quantity = some 101 := by
  refine ⟨?_, ?_, ?_, ?_⟩ <;>
  norm_num [sysRun, sysStep, trackerFill, trackerTick, slmFill, slmTick, stopHit,
    mapGet, mapSet, setAdd, setDiscard, quantize4, roundHalfEven,
    TrackerState.init, SLMState.init, sys0, c7events, sellStopSignal]

/-- Claim C7 (amended): while a stop is armed for a symbol and its
triggered flag is clear, a tick crossing the stop emits exactly one
closing Signal at strength 1.0 tagged with the reserved stop_loss
strategy id and sets the triggered flag; while the flag is set, no tick
for the symbol emits any signal.  The flag is cleared only by the fill
handler (any fill leaving the position non-flat re-arms, a flattening
fill removes the stop), so re-emission becomes possible after any
position-changing fill, not only after a flatten-and-reopen. -/
theorem c7_trigger_once_per_arming :
    (∀ (sm : SLMState) (t : Tick) (stop : StopLevel),
      sm.stops t.symbol = some stop →
      t.symbol ∉ sm.triggered →
      stopHit stop t.price = true →
      slmTick sm t =
        ({ sm with triggered := setAdd sm.triggered t.symbol },
         [{ strategy_id := "stop_loss", symbol := t.symbol,
            side := stop.side_to_close, strength := 1 }])) ∧
    (∀ (sm : SLMState) (t : Tick), t.symbol ∈ sm.triggered →
      (slmTick sm t).2 = []) := by
  constructor
  · intro sm t stop hstop hnt hhit
    simp only [slmTick, hstop]
    rw [if_neg hnt, if_pos hhit]
  · intro sm t ht
    cases hstop : sm.stops t.symbol with
    | none => simp [slmTick, hstop]
    | some stop => simp [slmTick, hstop, ht]

/-- Claim C7 (amended, witness): an armed 98-stop on a long fires exactly
once at 97.99, and a second adverse tick at 96 while triggered emits
nothing. -/
theorem c7_trigger_once_per_arming_witness :
    (slmTick armedSLM { symbol := "AAPL", price := 9799/100 }).2 = [sellStopSignal] ∧
    (slmTick { armedSLM with triggered := ["AAPL"] }
      { symbol := "AAPL", price := 96 }).2 = [] := by
  constructor
  · have h := c7_trigger_once_per_arming.1 armedSLM
      { symbol := "AAPL", price := 9799/100 } armedStop
      (by norm_num [armedSLM, armedStop]) (by norm_num [armedSLM])
      (by norm_num [stopHit, armedStop])
    rw [h]
    norm_num [sellStopSignal, armedStop]
  · exact c7_trigger_once_per_arming.2 { armedSLM with triggered := ["AAPL"] }
      { symbol := "AAPL", price := 96 } (by norm_num [armedSLM])

/-- Claim C8: publishing an event dispatches it to every handler
subscribed to its type through asyncio.gather with
return_exceptions=True: publish always returns (a raising handler
contributes an error value to the result list instead of propagating)
and every subscribed handler is invoked on the event, each one's result
independent of the others. -/
theorem c8_exception_isolation (env : ℕ → BusEvent → Except String Unit)
    (b : Bus) (e : BusEvent) :
    (publish env b e).2.length = (b.subscribers e.type).length ∧
    ∀ h ∈ b.subscribers e.type, env h e ∈ (publish env b e).2 := by
  constructor
  · simp [publish]
  · intro h hh
    simp only [publish]
    exact List.mem_map_of_mem _ hh

/-- Claim C8 (witness): with handler 0 raising and handler 1 succeeding,
both subscribed to TICK, a published tick still produces handler 1's
result alongside handler 0's captured exception. -/
theorem c8_exception_isolation_witness :
    Except.error "boom" ∈ (publish envBoom b0 (tickBE 0)).2 ∧
    Except.ok () ∈ (publish envBoom b0 (tickBE 0)).2 := by
  have h := c8_exception_isolation envBoom b0 (tickBE 0)
  constructor
  · have h0 := h.2 0 (by norm_num [b0, tickBE])
    simpa [envBoom] using h0
  · have h1 := h.2 1 (by norm_num [b0, tickBE])
    simpa [envBoom] using h1

/-- Claim C10 (counterexample): the claim says subscribe immediately
followed by unsubscribe of the same handler restores the original
subscriber lists.  With handlers [0, 1] on TICK, subscribing 0 gives
[0, 1, 0] and unsubscribing 0 removes the first occurrence, leaving
[1, 0], not the original [0, 1]. -/
theorem c10_counterexample :
    (unsubscribe (subscribe b0 EventType.tick 0) EventType.tick 0).map
      (fun b => b.subscribers EventType.tick) = Except.ok [1, 0] ∧
    b0.subscribers EventType.tick = [0, 1] ∧
    ([1, 0] : List ℕ) ≠ [0, 1] := by
  refine ⟨?_, ?_, ?_⟩ <;>
  norm_num [unsubscribe, subscribe, b0, List.erase, Except.map]

/-- Claim C10 (amended): unsubscribing a handler that is not in the
event type's subscriber list raises (list.remove's ValueError) and, the
exception being raised before any mutation, leaves every subscriber list
unchanged; unsubscribing a subscribed handler removes exactly one
occurrence (the first) and touches no other event type's list; and
subscribe immediately followed by unsubscribe of the same handler
restores every subscriber list provided the handler was not already
subscribed — if it was, the count is restored but the list order need
not be. -/
theorem c10_unsubscribe_first_occurrence :
    (∀ (b : Bus) (t : EventType) (h : ℕ), h ∉ b.subscribers t →
      unsubscribe b t h = Except.error "ValueError") ∧
    (∀ (b : Bus) (t : EventType) (h : ℕ), h ∈ b.subscribers t →
      (unsubscribe b t h).map (fun b2 => (b2.subscribers t).count h) =
        Except.ok ((b.subscribers t).count h - 1) ∧
      ∀ t2, t2 ≠ t →
        (unsubscribe b t h).map (fun b2 => b2.subscribers t2) =
          Except.ok (b.subscribers t2)) ∧
    (∀ (b : Bus) (t : EventType) (h : ℕ), h ∉ b.subscribers t →
      ∀ t2, (unsubscribe (subscribe b t h) t h).map (fun b2 => b2.subscribers t2) =
        Except.ok (b.subscribers t2)) := by
  refine ⟨?_, ?_, ?_⟩
  · intro b t h hh
    simp [unsubscribe, hh]
  · intro b t h hh
    constructor
    · simp [unsubscribe, hh, Except.map, List.count_erase_self]
    · intro t2 ht2
      simp [unsubscribe, hh, Except.map, ht2]
  · intro b t h hh
    have hmem : h ∈ (subscribe b t h).subscribers t := by
      simp [subscribe]
    intro t2
    by_cases ht2 : t2 = t
    · subst ht2
      simp [unsubscribe, hmem, Except.map, subscribe,
        List.erase_append_right _ hh, List.erase_cons_head]
    · simp [unsubscribe, hmem, Except.map, subscribe, ht2]

/-- Claim C10 (amended, witness): on the two-handler TICK bus,
unsubscribing the absent handler 7 raises, unsubscribing handler 0 drops
its count from one to zero, and subscribing then unsubscribing the fresh
handler 7 leaves the TICK list as it was. -/
theorem c10_unsubscribe_first_occurrence_witness :
    unsubscribe b0 EventType.tick 7 = Except.error "ValueError" ∧
    (unsubscribe b0 EventType.tick 0).map
      (fun b2 => (b2.subscribers EventType.tick).count 0) = Except.ok 0 ∧
    (unsubscribe (subscribe b0 EventType.tick 7) EventType.tick 7).map
      (fun b2 => b2.subscribers EventType.tick) = Except.ok [0, 1] := by
  refine ⟨?_, ?_, ?_⟩
  · exact c10_unsubscribe_first_occurrence.1 b0 EventType.tick 7
      (by norm_num [b0])
  · have h := (c10_unsubscribe_first_occurrence.2.1 b0 EventType.tick 0
      (by norm_num [b0])).1
    rw [h]
    norm_num [b0]
  · have h := c10_unsubscribe_first_occurrence.2.2 b0 EventType.tick 7
      (by norm_num [b0]) EventType.tick
    rw [h]
    norm_num [b0]

/-- Claim C5 (counterexample): the claim says that after same-direction
fills q1..qn at p1..pn from flat, avg_entry_price equals the weighted
mean of the fills, the average being rounded to a fixed number of
decimal places after each update.  Buying 1 at 1.0000 and then 2 at
1.0001 gives the weighted mean 15001/15000 = 1.00006666...; the stored
average is its 4-decimal rounding 1.0001, which differs from the mean,
so the exact equality fails. -/
theorem c5_counterexample :
    (mapGet (applyBuys "X" (TrackerState.init 100000) fillsC5).positions "X").map
      Position.avg_entry_price = some (10001/10000) ∧
    wavg fillsC5 = 15001/15000 ∧
    (10001/10000 : ℚ) ≠ 15001/15000 := by
  refine ⟨?_, ?_, ?_⟩
  · have hfract : Int.fract ((30002 : ℚ)/3) = 2/3 := by
      rw [Int.fract]
      norm_num
    norm_num [applyBuys, trackerFill, mapGet, mapSet, quantize4, roundHalfEven,
      TrackerState.init, fillsC5, hfract]
  · norm_num [wavg, sumCost, sumQty, fillsC5]
  · norm_num

/-- Claim C5 (amended): for same-direction buy fills with quantities
q1..qn at prices p1..pn applied to an initially flat position, the
stored avg_entry_price is the running weighted average with a
4-decimal-place rounding applied after each update; whenever every
intermediate weighted average is exactly representable at 4 decimal
places (the rounding is then the identity at each step), the resulting
avg_entry_price equals the specification's formula sum(qi*pi)/sum(qi)
exactly. -/
theorem c5_weighted_average_when_representable (sym : String) (c : ℚ)
    (l : List (ℤ × ℚ)) (hne : l ≠ [])
    (hq : ∀ qp ∈ l, 1 ≤ qp.1)
    (hex : ∀ k, k < l.length → quantize4 (wavg (l.take (k+1))) = wavg (l.take (k+1))) :
    mapGet (applyBuys sym (TrackerState.init c) l).positions sym =
      some { symbol := sym, quantity := sumQty l, avg_entry_price := wavg l,
             current_price := 0, unrealized_pnl := 0, realized_pnl := 0 } := by
  induction l using List.reverseRecOn with
  | nil => exact absurd rfl hne
  | append_singleton l qp ih =>
    rcases eq_or_ne l [] with hl | hl
    · subst hl
      have hq1 : 1 ≤ qp.1 := hq qp (by simp)
      have hex0 := hex 0 (by simp)
      simp only [List.nil_append] at hex0 ⊢
      simp only [List.take_succ_cons, List.take_zero] at hex0
      have hgt : (0 : ℤ) + qp.1 > 0 := by omega
      simp only [applyBuys, List.foldl_cons, List.foldl_nil, trackerFill,
        TrackerState.init, mapGet_nil, Option.getD_none]
      simp only [if_pos (le_refl (0 : ℤ)), if_pos hgt]
      try dsimp only
      rw [mapGet_mapSet_self]
      refine congrArg some (position_eq_of_fields rfl ?_ ?_ rfl rfl rfl)
      · simp [sumQty]
      · convert hex0 using 2
        simp only [wavg, sumCost, sumQty, List.map_cons, List.map_nil,
          List.sum_cons, List.sum_nil]
        push_cast
        ring
    · have hq2 : ∀ qp2 ∈ l, 1 ≤ qp2.1 :=
        fun x hx => hq x (List.mem_append_left _ hx)
      have hex2 : ∀ k, k < l.length →
          quantize4 (wavg (l.take (k+1))) = wavg (l.take (k+1)) := by
        intro k hk
        have h2 := hex k (by simp; omega)
        have hz : k + 1 - l.length = 0 := by omega
        rw [List.take_append_eq_append_take, hz, List.take_zero,
          List.append_nil] at h2
        exact h2
      have ihh := ih hl hq2 hex2
      have hq1 : 1 ≤ qp.1 := hq qp (by simp)
      have hpos : 0 < sumQty l := by
        have hsum := List.sum_pos (l.map (fun qp2 => qp2.1)) ?_ (by simpa using hl)
        · simpa [sumQty] using hsum
        · intro x hx
          rcases List.mem_map.mp hx with ⟨a, ha, rfl⟩
          have := hq2 a ha
          omega
      have hcast : ((sumQty l : ℤ) : ℚ) ≠ 0 := by
        exact_mod_cast hpos.ne'
      have hexlast := hex l.length (by simp)
      have htakeall : (l ++ [qp]).take (l.length + 1) = l ++ [qp] :=
        List.take_of_length_le (by simp)
      rw [htakeall] at hexlast
      have hge : sumQty l ≥ 0 := le_of_lt hpos
      have hgt : sumQty l + qp.1 > 0 := by omega
      have hsplit : applyBuys sym (TrackerState.init c) (l ++ [qp]) =
          trackerFill (applyBuys sym (TrackerState.init c) l)
            { symbol := sym, side := Side.buy, quantity := qp.1, price := qp.2 } := by
        simp [applyBuys]
      rw [hsplit]
      simp only [trackerFill, ihh, Option.getD_some]
      simp only [if_pos hge, if_pos hgt]
      try dsimp only
      rw [mapGet_mapSet_self]
      refine congrArg some (position_eq_of_fields rfl ?_ ?_ rfl rfl rfl)
      · simp [sumQty]
      · have htot : wavg l * ((sumQty l : ℤ) : ℚ) + qp.2 * (qp.1 : ℚ) =
            sumCost (l ++ [qp]) := by
          simp only [wavg, div_mul_cancel₀ _ hcast, sumCost, List.map_append,
            List.map_cons, List.map_nil, List.sum_append, List.sum_cons,
            List.sum_nil]
          ring
        have hden : ((sumQty l + qp.1 : ℤ) : ℚ) = ((sumQty (l ++ [qp]) : ℤ) : ℚ) := by
          simp [sumQty]
        have hw : sumCost (l ++ [qp]) / ((sumQty (l ++ [qp]) : ℤ) : ℚ) =
            wavg (l ++ [qp]) := rfl
        rw [htot, hden, hw]
        exact hexlast

/-- Claim C5 (amended, witness): buying 2 at 100.10 and 2 at 100.15 has
running averages 100.1 and 100.125, both exact at four decimal places,
so the stored average equals the weighted mean 801/8. -/
theorem c5_weighted_average_when_representable_witness :
    mapGet (applyBuys "X" (TrackerState.init 100000) fillsW).positions "X" =
      some { symbol := "X", quantity := sumQty fillsW, avg_entry_price := wavg fillsW,
             current_price := 0, unrealized_pnl := 0, realized_pnl := 0 } := by
  refine c5_weighted_average_when_representable "X" 100000 fillsW
    (by simp [fillsW]) ?_ ?_
  · intro qp hqp
    simp only [fillsW, List.mem_cons, List.not_mem_nil, or_false] at hqp
    rcases hqp with h | h <;> subst h <;> norm_num
  · intro k hk
    simp only [fillsW, List.length_cons, List.length_nil] at hk
    interval_cases k
    · norm_num [fillsW, wavg, sumCost, sumQty, quantize4, roundHalfEven]
    · norm_num [fillsW, wavg, sumCost, sumQty, quantize4, roundHalfEven]

/-- Looking up the just-recorded history suffix: recording keeps at most
maxHistory elements. -/
theorem record_length_le {ε : Type} (hist : List ε) (e : ε)
    (hlen : hist.length ≤ 1000) : (record 1000 hist e).length ≤ 1000 := by
  simp only [record]
  split_ifs with hc
  · simp only [List.length_drop]
    omega
  · simp only [List.length_append, List.length_cons, List.length_nil] at hc ⊢
    omega

/-- One recording step, seen on the reversed history: cons the event and
truncate to maxHistory. -/
theorem record_reverse {ε : Type} (hist : List ε) (e : ε)
    (hlen : hist.length ≤ 1000) :
    (record 1000 hist e).reverse = (e :: hist.reverse).take 1000 := by
  simp only [record]
  split_ifs with hc
  · simp only [List.length_append, List.length_cons, List.length_nil] at hc
    have h1000 : hist.length = 1000 := by omega
    rw [List.reverse_drop]
    simp [h1000, List.reverse_append]
  · simp only [List.length_append, List.length_cons, List.length_nil] at hc
    rw [List.take_of_length_le (by simp; omega)]
    simp [List.reverse_append]

/-- Truncating an append to n elements ignores any earlier truncation of
the right part to the same n. -/
theorem take_append_take {ε : Type} (a b : List ε) (n : ℕ) :
    (a ++ b.take n).take n = (a ++ b).take n := by
  rw [List.take_append_eq_append_take, List.take_append_eq_append_take,
    List.take_take]
  congr 1
  simp [Nat.min_eq_left (Nat.sub_le _ _)]

/-- Folding a sequence of recordings equals truncating the reversed
arrival order to maxHistory. -/
theorem recordAll_reverse {ε : Type} (es : List ε) :
    ∀ hist : List ε, hist.length ≤ 1000 →
      (recordAll 1000 hist es).reverse = (es.reverse ++ hist.reverse).take 1000 := by
  induction es with
  | nil =>
    intro hist hlen
    simp only [recordAll, List.foldl_nil, List.reverse_nil, List.nil_append]
    rw [List.take_of_length_le (by simpa using hlen)]
  | cons e rest ih =>
    intro hist hlen
    have hstep : recordAll 1000 hist (e :: rest) =
        recordAll 1000 (record 1000 hist e) rest := by
      simp [recordAll]
    rw [hstep, ih (record 1000 hist e) (record_length_le hist e hlen),
      record_reverse hist e hlen, take_append_take]
    congr 1
    simp

/-- The reversed-truncation form, read back in arrival order: the suffix
of the arrivals. -/
theorem reverse_take_reverse {ε : Type} (l : List ε) (n : ℕ) :
    (l.reverse.take n).reverse = l.drop (l.length - n) := by
  by_cases h : n ≤ l.length
  · have h2 := List.reverse_drop (l := l) (n := l.length - n)
    have h3 : l.length - (l.length - n) = n := by omega
    rw [h3] at h2
    rw [← h2, List.reverse_reverse]
  · rw [List.take_of_length_le (by simp; omega), List.reverse_reverse,
      Nat.sub_eq_zero_of_le (by omega), List.drop_zero]

/-- Publishing only appends to history: the subscribers' results do not
feed back into the record. -/
theorem publishAll_history (env : ℕ → BusEvent → Except String Unit)
    (b : Bus) (es : List BusEvent) :
    (publishAll env b es).history = recordAll 1000 b.history es := by
  induction es generalizing b with
  | nil => rfl
  | cons e rest ih =>
    have h := ih ((publish env b e).1)
    simp only [publishAll, List.foldl_cons, recordAll] at h ⊢
    rw [h]
    rfl

/-- Claim C9: after publishing any sequence of k events onto an empty
bus, the history holds exactly the most recent min(k, 1000) of them in
arrival order, oldest evicted first; in particular publishing the 1500
events numbered 0..1499 leaves exactly events 500..1499 in order. -/
theorem c9_bounded_history :
    (∀ (ε : Type) (es : List ε),
      recordAll 1000 ([] : List ε) es = es.drop (es.length - 1000)) ∧
    (∀ env, (publishAll env Bus.empty ((List.range 1500).map tickBE)).history =
      (List.range' 500 1000).map tickBE) := by
  have hmain : ∀ (ε : Type) (es : List ε),
      recordAll 1000 ([] : List ε) es = es.drop (es.length - 1000) := by
    intro ε es
    have h := recordAll_reverse es [] (by simp)
    simp only [List.reverse_nil, List.append_nil] at h
    have h2 := congrArg List.reverse h
    rw [List.reverse_reverse] at h2
    rw [h2, reverse_take_reverse]
  refine ⟨hmain, ?_⟩
  intro env
  rw [publishAll_history]
  show recordAll 1000 ([] : List BusEvent) _ = _
  rw [hmain]
  simp only [List.length_map, List.length_range]
  rw [← List.map_drop]
  refine congrArg (List.map tickBE) ?_
  rw [List.range_eq_range']
  have hsplit : List.range' 0 500 ++ List.range' 500 1000 = List.range' 0 1500 := by
    have h := List.range'_append_1 0 500 1000
    simpa using h
  rw [← hsplit, List.drop_left' (by norm_num)]

/-- Claim C6: the three risk limits are evaluated in the fixed order
max-order-value, max-position-size, max-drawdown with the first failure
winning: an order whose notional value exceeds max-order-value and whose
projected position also exceeds max-position-size is rejected with the
order-value reason. -/
theorem c6_order_value_checked_first
    (prices : String → Option ℚ) (tr : TrackerState) (s : Settings) (o : OrderRequest)
    (h1 : ((prices o.symbol).getD 100) * (o.quantity : ℚ) > s.max_order_value)
    (_h2 : ((prices o.symbol).getD 100) * ((|currentQty tr o.symbol + o.quantity| : ℤ) : ℚ) >
        s.max_position_size) :
    checkOrder prices tr s o = some "max_order_value_exceeded" := by
  unfold checkOrder
  rw [if_pos h1]

/-- Claim C6 (witness): a 10-share buy at reference price 100 against
limits max_order_value 100 and max_position_size 500 violates both
checks and is rejected for the order value. -/
theorem c6_order_value_checked_first_witness :
    checkOrder noPrices (TrackerState.init 100000)
      { max_order_value := 100, max_position_size := 500, max_drawdown_pct := 1/20 }
      { symbol := "AAPL", side := Side.buy, quantity := 10 } =
      some "max_order_value_exceeded" :=
  c6_order_value_checked_first noPrices (TrackerState.init 100000) _ _
    (by norm_num [noPrices])
    (by norm_num [noPrices, currentQty, mapGet, TrackerState.init])

end TradingSim
